import Mathlib

/-!
Verification development for a storage-array polling codebase
(`rdf.py`, `rdf_sql.py`, `uniVmax_rdf.py`): batch splitting, bounded
fan-out with per-target error capture, pagination, sleep compensation,
startup abort, and database commit placement.

JSON values are modelled by the inductive `Json`; HTTP responses carry a
status code and a parsed body; a `session.get` that may raise is modelled
by a function into `GetResult`.
-/

/-- Parsed JSON values, the bodies of API responses. -/
inductive Json where
  | null
  | bool (b : Bool)
  | num (n : Int)
  | str (s : String)
  | arr (elems : List Json)
  | obj (fields : List (String × Json))

/-- An HTTP response: status code plus parsed JSON body. -/
structure HttpResponse where
  status_code : Nat
  body : Json

/-- Outcome of one `session.get` call: either a response or a raised
transport-level exception (caught as `Exception` in the sources). -/
inductive GetResult where
  | ok (resp : HttpResponse)
  | exn (msg : String)

namespace Json

/-- Dictionary lookup on an object; `none` on non-objects or missing key
(first binding wins, as in a Python dict where keys are unique). -/
def lookup? : Json → String → Option Json
  | .obj fields, k => fields.lookup k
  | _, _ => none

/-- Python truthiness of a JSON value (`if data['resultList']['nextPageKey']:`). -/
def pyTruthy : Json → Bool
  | .null => false
  | .bool b => b
  | .num n => n != 0
  | .str s => s != ""
  | .arr l => !l.isEmpty
  | .obj f => !f.isEmpty

/-- Whether `v` is a dict (`isinstance(data, dict)`). -/
def isObj : Json → Bool
  | .obj _ => true
  | _ => false

/-- Substring test on character lists, for Python `'k' in some_string`. -/
def subOf (needle : List Char) : List Char → Bool
  | [] => needle.isEmpty
  | c :: t => needle.isPrefixOf (c :: t) || subOf needle t

/-- Python `key in v`: key membership for dicts, element equality for
lists, substring test for strings; a `TypeError` otherwise. -/
def pyIn (key : String) : Json → Except String Bool
  | .obj fields => .ok (fields.any (fun p => p.1 == key))
  | .arr xs => .ok (xs.any (fun v => match v with | .str s => s == key | _ => false))
  | .str s => .ok (subOf key.data s.data)
  | _ => .error "TypeError: argument of type is not iterable"

/-- Python `v[key]` subscription: `KeyError` on a dict missing the key,
`TypeError` on anything that is not a dict. -/
def subscript : Json → String → Except String Json
  | .obj fields, k =>
      match fields.lookup k with
      | some v => .ok v
      | none => .error "KeyError"
  | _, _ => .error "TypeError: not subscriptable by str"

/-- Python iteration over a value (`extend(x)` / `for y in x`): list
elements, dict keys, string characters; `TypeError` otherwise. -/
def pyIter : Json → Except String (List Json)
  | .arr xs => .ok xs
  | .obj fields => .ok (fields.map (fun p => .str p.1))
  | .str s => .ok (s.data.map (fun c => .str (String.mk [c])))
  | _ => .error "TypeError: not iterable"

end Json

namespace Rdf

/-!
Embedding of `rdf.py`.
-/

/-- `get_rdf_status(sg_name)` from `rdf.py`, with the session's GET
abstracted as a function `get`: on a 200 response return
`{sg_name: response.json()}`, on any other status return
`{sg_name: f"Error: {code}"}`, and on a raised exception return
`{sg_name: f"Exception: {e}"}`. The single-key dict is a pair. -/
def get_rdf_status (get : String → GetResult) (sg_name : String) : String × Json :=
  match get sg_name with
  | .ok response =>
      if response.status_code = 200 then (sg_name, response.body)
      else (sg_name, .str ("Error: " ++ toString response.status_code))
  | .exn e => (sg_name, .str ("Exception: " ++ e))

/-- The `results` list built in `process_batch`:
`list(executor.map(get_rdf_status, batch))`. `ThreadPoolExecutor.map`
yields results in input order, so this is a `List.map`. -/
def process_batch_results (get : String → GetResult) (batch : List String) :
    List (String × Json) :=
  batch.map (get_rdf_status get)

/-- The return value of `process_batch`: `len(results)`. -/
def process_batch_ret (get : String → GetResult) (batch : List String) : Nat :=
  (process_batch_results get batch).length

/-- Python `range(start, stop, step)` for a positive step. -/
def pyRange (start stop step : Nat) : List Nat :=
  if h : 0 < step ∧ start < stop then start :: pyRange (start + step) stop step
  else []
termination_by stop - start
decreasing_by omega

/-- The batch-splitting step of `main` in `rdf.py`:
`[storage_groups[i:i + BATCH_SIZE] for i in range(0, len(storage_groups), BATCH_SIZE)]`,
with the slice `l[i:i+B]` rendered as `(l.drop i).take B`. -/
def batches (storage_groups : List α) (batch_size : Nat) : List (List α) :=
  (pyRange 0 storage_groups.length batch_size).map
    (fun i => (storage_groups.drop i).take batch_size)

end Rdf

/-! Basic facts about `pyRange` and `batches`. -/

theorem pyRange_empty (start stop step : Nat) (h : ¬(0 < step ∧ start < stop)) :
    Rdf.pyRange start stop step = [] := by
  rw [Rdf.pyRange]
  simp [h]

theorem pyRange_cons (start stop step : Nat) (h : 0 < step ∧ start < stop) :
    Rdf.pyRange start stop step = start :: Rdf.pyRange (start + step) stop step := by
  rw [Rdf.pyRange]
  simp [h]

/-- Shifting the start of a range shifts its elements. -/
theorem pyRange_shift (s d t k : Nat) :
    Rdf.pyRange (s + d) t k = (Rdf.pyRange s (t - d) k).map (fun x => x + d) := by
  by_cases hk : 0 < k
  · by_cases hs : s < t - d
    · have h1 : 0 < k ∧ s + d < t := ⟨hk, by omega⟩
      have h2 : 0 < k ∧ s < t - d := ⟨hk, hs⟩
      rw [pyRange_cons _ _ _ h1, pyRange_cons _ _ _ h2, List.map_cons]
      rw [show s + d + k = s + k + d from by omega, pyRange_shift (s + k) d t k]
    · have h1 : ¬(0 < k ∧ s + d < t) := by omega
      have h2 : ¬(0 < k ∧ s < t - d) := by omega
      rw [pyRange_empty _ _ _ h1, pyRange_empty _ _ _ h2]
      rfl
  · have h1 : ¬(0 < k ∧ s + d < t) := by omega
    have h2 : ¬(0 < k ∧ s < t - d) := by omega
    rw [pyRange_empty _ _ _ h1, pyRange_empty _ _ _ h2]
    rfl
termination_by t - s
decreasing_by omega

/-- One unfolding step of `batches` on a nonempty input. -/
theorem batches_cons {α : Type} (l : List α) (B : Nat) (hB : 0 < B) (hl : l ≠ []) :
    Rdf.batches l B = l.take B :: Rdf.batches (l.drop B) B := by
  have hlen : 0 < l.length := List.length_pos.mpr hl
  unfold Rdf.batches
  rw [pyRange_cons 0 l.length B ⟨hB, hlen⟩, List.map_cons]
  simp only [Nat.zero_add, List.drop_zero]
  have hshift := pyRange_shift 0 B l.length B
  simp only [Nat.zero_add] at hshift
  rw [hshift, List.map_map, List.length_drop]
  congr 1
  apply List.map_congr_left
  intro i _
  simp only [Function.comp_apply]
  rw [List.drop_drop, Nat.add_comm B i]

/-- On an empty input `batches` produces no batch. -/
theorem batches_nil {α : Type} (B : Nat) : Rdf.batches ([] : List α) B = [] := by
  unfold Rdf.batches
  rw [pyRange_empty]
  · rfl
  · simp

/-- Arithmetic step for the ceiling-division batch count. -/
theorem ceil_div_step (n B : Nat) (hB : 0 < B) (hn : 0 < n) :
    (n + B - 1) / B = (n - B + B - 1) / B + 1 := by
  rcases le_or_lt n B with hle | hlt
  · have h1 : n + B - 1 = (n - 1) + B := by omega
    have h2 : n - B = 0 := by omega
    rw [h1, Nat.add_div_right _ hB, h2, Nat.div_eq_of_lt (by omega),
      Nat.div_eq_of_lt (by omega)]
  · have h1 : n + B - 1 = (n - B + B - 1) + B := by omega
    rw [h1, Nat.add_div_right _ hB]

/-- `batches` splits a list into `⌈N/B⌉` pieces. -/
theorem batches_length {α : Type} (B : Nat) (hB : 0 < B) (l : List α) :
    (Rdf.batches l B).length = (l.length + B - 1) / B := by
  rcases eq_or_ne l [] with rfl | hl
  · rw [batches_nil]
    simp [Nat.div_eq_of_lt (by omega : B - 1 < B)]
  · have hlen : 0 < l.length := List.length_pos.mpr hl
    rw [batches_cons l B hB hl, List.length_cons,
      batches_length B hB (l.drop B), List.length_drop,
      ceil_div_step l.length B hB hlen]
termination_by l.length
decreasing_by
  simp only [List.length_drop]
  omega

/-- Concatenating the batches reconstructs the original list. -/
theorem batches_flatten {α : Type} (B : Nat) (hB : 0 < B) (l : List α) :
    (Rdf.batches l B).flatten = l := by
  rcases eq_or_ne l [] with rfl | hl
  · rw [batches_nil]
    rfl
  · have hlen : 0 < l.length := List.length_pos.mpr hl
    rw [batches_cons l B hB hl, List.flatten_cons, batches_flatten B hB (l.drop B)]
    exact List.take_append_drop B l
termination_by l.length
decreasing_by
  simp only [List.length_drop]
  omega

/-- The batch list is exactly the list of contiguous slices
`l[j*B : j*B+B]` for `j = 0, …, ⌈N/B⌉−1`, in order. -/
theorem batches_eq_slices {α : Type} (B : Nat) (hB : 0 < B) (l : List α) :
    Rdf.batches l B = (List.range ((l.length + B - 1) / B)).map
      (fun j => (l.drop (j * B)).take B) := by
  rcases eq_or_ne l [] with rfl | hl
  · rw [batches_nil]
    simp [Nat.div_eq_of_lt (by omega : B - 1 < B)]
  · have hlen : 0 < l.length := List.length_pos.mpr hl
    rw [batches_cons l B hB hl, batches_eq_slices B hB (l.drop B), List.length_drop,
      ceil_div_step l.length B hB hlen, List.range_succ_eq_map, List.map_cons,
      List.map_map]
    congr 1
    · simp
    · apply List.map_congr_left
      intro j _
      simp only [Function.comp_apply, List.drop_drop]
      congr 2
      rw [Nat.succ_eq_add_one]
      ring
termination_by l.length
decreasing_by
  simp only [List.length_drop]
  omega

namespace Rdf

/-- Observable actions of the batch loop in `main` (`rdf.py`): processing
one batch (with its index, 1-based as in `enumerate(batches, 1)`), or the
fixed inter-batch `time.sleep(10)`. Console prints are omitted. -/
inductive Event where
  | process (batch_num : Nat) (batch : List String)
  | sleep (seconds : Nat)
deriving DecidableEq

/-- The loop body of `main` in `rdf.py`: for each `(i, batch)` from
`enumerate(batches, 1)`, process the batch, then `time.sleep(10)` iff
`i < len(batches)`. `n` is `len(batches)`. -/
def batch_loop (n : Nat) : Nat → List (List String) → List Event
  | _, [] => []
  | i, b :: rest =>
      Event.process i b :: (if i < n then [Event.sleep 10] else []) ++ batch_loop n (i + 1) rest

/-- The event trace of `main`'s batch loop on a given batch list. -/
def main_schedule (bs : List (List String)) : List Event :=
  batch_loop bs.length 1 bs

/-- The processing events alone, numbered from `i`. -/
def process_events (i : Nat) : List (List String) → List Event
  | [] => []
  | b :: rest => Event.process i b :: process_events (i + 1) rest

/-- Recognizer for sleep events. -/
def isSleepEvent : Event → Bool
  | .sleep _ => true
  | _ => false

end Rdf

namespace RdfSql

/-!
Embedding of `rdf_sql.py`.
-/

/-- `get_rdf_status(session, sg_name)` from `rdf_sql.py`: on a 200
response return `response.json()`, on any other status return
`{"error": f"HTTP {code}"}`, on a raised exception return
`{"error": str(e)}`. -/
def get_rdf_status (get : String → GetResult) (sg_name : String) : Json :=
  match get sg_name with
  | .ok response =>
      if response.status_code = 200 then response.body
      else .obj [("error", .str ("HTTP " ++ toString response.status_code))]
  | .exn e => .obj [("error", .str e)]

/-- `sleep_time = max(0, COLLECTION_INTERVAL - processing_time)` from
`main` in `rdf_sql.py`, over exact (rational) time values. -/
def sleep_time (collection_interval processing_time : ℚ) : ℚ :=
  max 0 (collection_interval - processing_time)

/-- A database operation issued by `process_storage_groups`: one
`cursor.execute(INSERT ...)` or the single `conn.commit()`. -/
inductive DbOp where
  | insert (storage_group : String) (rdf_group : Json)
  | commit

/-- Recognizer for the commit operation. -/
def isCommit : DbOp → Bool
  | .commit => true
  | _ => false

/-- The `try:` block around `future.result()` in `process_storage_groups`:
yields the list of `rdf_group` values to insert when the fetched result
contains `'rdfGroupInfo'` and iterating `result['rdfGroupInfo']` succeeds;
`none` when the key test fails or any step raises (the `except` branch) or
the key is absent (the `else` branch) — in all those cases the loop only
prints and moves on. Inserts themselves are assumed not to raise. -/
def try_result (get : String → GetResult) (sg : String) : Option (List Json) :=
  let result := get_rdf_status get sg
  match Json.pyIn "rdfGroupInfo" result with
  | .ok true =>
      match Json.subscript result "rdfGroupInfo" with
      | .ok v =>
          match Json.pyIter v with
          | .ok rdf_groups => some rdf_groups
          | .error _ => none
      | .error _ => none
  | _ => none

/-- One iteration of the `for future in futures:` loop in
`process_storage_groups`, acting on the accumulated `(cursor inserts,
processed)` state: when the try block yields rdf groups, append one
insert per group and increment `processed`; otherwise leave the state
unchanged (only a console print happens). -/
def psg_step (get : String → GetResult) (acc : List DbOp × Nat) (sg : String) :
    List DbOp × Nat :=
  match try_result get sg with
  | some rdf_groups => (acc.1 ++ rdf_groups.map (DbOp.insert sg), acc.2 + 1)
  | none => acc

/-- `process_storage_groups` from `rdf_sql.py`, as the sequence of
database operations it issues and its return value `processed`: one
insert per entry of `result['rdfGroupInfo']` for each storage group whose
result has that key, `processed` incremented once per such group, and a
single `conn.commit()` after the loop. -/
def process_storage_groups (get : String → GetResult) (storage_groups : List String) :
    List DbOp × Nat :=
  let fold := storage_groups.foldl (psg_step get) ([], 0)
  (fold.1 ++ [DbOp.commit], fold.2)

/-- Transactional meaning of an operation list: inserts are pending until
a commit makes them durable; returns the durable inserts. -/
def committed_after (ops : List DbOp) : List DbOp :=
  (ops.foldl
    (fun (st : List DbOp × List DbOp) op =>
      match op with
      | DbOp.insert sg v => (st.1 ++ [DbOp.insert sg v], st.2)
      | DbOp.commit => ([], st.2 ++ st.1))
    ([], [])).2

/-- Observable actions of `main` in `rdf_sql.py` at pass granularity:
console lines, one collection pass (a `process_storage_groups` call), and
the database commit that pass issues. -/
inductive SysEvent where
  | console (line : String)
  | collection_pass (k : Nat)
  | db_commit
deriving DecidableEq

/-- Events of the first `passes` iterations of the `while True:` loop. -/
def loop_events (passes : Nat) : List SysEvent :=
  (List.range passes).flatMap (fun k =>
    [SysEvent.console "Starting collection", SysEvent.collection_pass k,
     SysEvent.db_commit, SysEvent.console "Completed collection"])

/-- `main` from `rdf_sql.py`, observed for the first `passes` loop
iterations: an uncaught exception on the inventory GET terminates the
process; a non-200 inventory response prints and returns before the loop;
otherwise the collection loop runs. -/
def main_events (inv : GetResult) (passes : Nat) : List SysEvent :=
  match inv with
  | .exn e => [.console ("Traceback: " ++ e)]
  | .ok response =>
      if response.status_code ≠ 200 then
        [.console ("Failed to get storage groups: HTTP " ++ toString response.status_code)]
      else
        .console "Found RDF storage groups" :: loop_events passes

end RdfSql

namespace Vmax

/-!
Embedding of `VMAXClient._get_paginated` from `uniVmax_rdf.py`. The
successive responses the server returns (one per iteration of the
`while True:` loop, each obtained with the current `params`) are
abstracted as a list; an empty list models an unreachable/looping server
and surfaces as an error, which no claim exercises.
-/

/-- The branch test `isinstance(data, dict) and 'resultList' in data`. -/
def is_paginated_response (data : Json) : Bool :=
  match data with
  | .obj fields => fields.any (fun p => p.1 == "resultList")
  | _ => false

/-- What `_get_paginated` returns: the accumulated `results` list, or a
non-paginated body passed through unchanged. -/
inductive PagValue where
  | items (results : List Json)
  | raw (body : Json)

/-- The `while True:` loop of `_get_paginated`, with `results` the
accumulator. `response.raise_for_status()` raises on status ≥ 400;
`results.extend(data['resultList']['result'])` subscripts twice and
iterates; the loop continues iff `'nextPageKey' in data['resultList']`
and that value is truthy. -/
def getPaginatedLoop (responses : List HttpResponse) (results : List Json) :
    Except String PagValue :=
  match responses with
  | [] => .error "ConnectionError: no response"
  | response :: rest =>
      if 400 ≤ response.status_code then
        .error ("HTTPError: " ++ toString response.status_code)
      else
        let data := response.body
        if is_paginated_response data then
          (Json.subscript data "resultList").bind fun rl =>
          (Json.subscript rl "result").bind fun res =>
          (Json.pyIter res).bind fun items =>
          (Json.pyIn "nextPageKey" rl).bind fun has_key =>
          if has_key then
            (Json.subscript rl "nextPageKey").bind fun npk =>
            if npk.pyTruthy then getPaginatedLoop rest (results ++ items)
            else .ok (.items (results ++ items))
          else .ok (.items (results ++ items))
        else .ok (.raw data)

/-- `_get_paginated` itself: run the loop with `results = []`. -/
def get_paginated (responses : List HttpResponse) : Except String PagValue :=
  getPaginatedLoop responses []

/-- A response that is one page of a well-formed paginated sequence: a
sub-400 status, a dict body with a `resultList` whose `result` is the
list `items`, and a next-page key that is present and truthy exactly when
the page is not the last. -/
def PageShape (r : HttpResponse) (items : List Json) (is_last : Bool) : Prop :=
  r.status_code < 400 ∧
  is_paginated_response r.body = true ∧
  ∃ rl, Json.subscript r.body "resultList" = .ok rl ∧
    Json.subscript rl "result" = .ok (.arr items) ∧
    (if is_last then
      (Json.pyIn "nextPageKey" rl = .ok false ∨
        ∃ v, Json.pyIn "nextPageKey" rl = .ok true ∧
          Json.subscript rl "nextPageKey" = .ok v ∧ v.pyTruthy = false)
    else
      ∃ v, Json.pyIn "nextPageKey" rl = .ok true ∧
        Json.subscript rl "nextPageKey" = .ok v ∧ v.pyTruthy = true)

/-- A well-formed paginated response sequence paired with its pages'
item lists: every page carries a truthy next-page key except the last. -/
inductive PagStream : List HttpResponse → List (List Json) → Prop
  | last (r : HttpResponse) (items : List Json) :
      PageShape r items true → PagStream [r] [items]
  | cons (r : HttpResponse) (items : List Json) (rs : List HttpResponse)
      (ps : List (List Json)) :
      PageShape r items false → PagStream rs ps →
      PagStream (r :: rs) (items :: ps)

end Vmax

/-! ## Claims -/

/-- C1: for every list of `N` targets and batch size `B > 0`, the
batch-splitting step in `main` produces exactly `⌈N/B⌉` batches
(`(N + B - 1) / B` in `Nat`), each batch is the contiguous slice
`l[j*B : j*B+B]` in original order, and concatenating the batches in
order yields exactly the original list. -/
theorem claim_C1 {α : Type} (l : List α) (B : Nat) (hB : 0 < B) :
    (Rdf.batches l B).length = (l.length + B - 1) / B ∧
    Rdf.batches l B =
      (List.range ((l.length + B - 1) / B)).map (fun j => (l.drop (j * B)).take B) ∧
    (Rdf.batches l B).flatten = l :=
  ⟨batches_length B hB l, batches_eq_slices B hB l, batches_flatten B hB l⟩

theorem claim_C1_witness :
    (Rdf.batches ["SG1", "SG2", "SG3"] 2).length = 2 ∧
    (Rdf.batches ["SG1", "SG2", "SG3"] 2).flatten = ["SG1", "SG2", "SG3"] := by
  have h := claim_C1 ["SG1", "SG2", "SG3"] 2 (by decide)
  exact ⟨by rw [h.1]; rfl, h.2.2⟩

/-- C3: the collector loop's sleep duration is exactly
`max(0, interval − processing)`: never negative, and exactly `0` whenever
the pass overran the interval. -/
theorem claim_C3 (I P : ℚ) :
    RdfSql.sleep_time I P = max 0 (I - P) ∧
    0 ≤ RdfSql.sleep_time I P ∧
    (I < P → RdfSql.sleep_time I P = 0) := by
  refine ⟨rfl, le_max_left 0 _, fun h => ?_⟩
  exact max_eq_left (by linarith)

theorem claim_C3_witness :
    RdfSql.sleep_time 5 7 = 0 ∧ 0 ≤ RdfSql.sleep_time 5 7 := by
  have h := claim_C3 5 7
  exact ⟨h.2.2 (by norm_num), h.2.1⟩

/-- C9: the results list produced by `process_batch` has the same length
and order as the input batch, and the key of the i-th single-key result
mapping is the i-th target, for successes and failures alike. -/
theorem claim_C9 (get : String → GetResult) (batch : List String) :
    (Rdf.process_batch_results get batch).length = batch.length ∧
    (Rdf.process_batch_results get batch).map Prod.fst = batch := by
  have hfst : ∀ sg, (Rdf.get_rdf_status get sg).1 = sg := by
    intro sg
    unfold Rdf.get_rdf_status
    cases get sg with
    | ok r =>
        by_cases h : r.status_code = 200 <;> simp [h]
    | exn e => rfl
  constructor
  · simp [Rdf.process_batch_results]
  · simp only [Rdf.process_batch_results, List.map_map, Function.comp_def, hfst]
    simp

/-- C4, counterexample: a 2xx status other than 200 (here 201) does NOT
yield the parsed body — `get_rdf_status` tests `status_code == 200`
exactly, so a 201 response is recorded as the error string
`"Error: 201"`, refuting "status in the 2xx range returns the parsed
JSON body". -/
theorem claim_C4_counterexample :
    Rdf.get_rdf_status (fun _ => GetResult.ok ⟨201, Json.obj []⟩) "SG1" =
      ("SG1", Json.str "Error: 201") ∧
    Rdf.get_rdf_status (fun _ => GetResult.ok ⟨201, Json.obj []⟩) "SG1" ≠
      ("SG1", Json.obj []) := by
  constructor
  · rfl
  · intro h
    have h2 : Json.str "Error: 201" = Json.obj [] := congrArg Prod.snd h
    exact Json.noConfusion h2

/-- C4 (amended): the fetch returns the parsed JSON body exactly when the
status code equals 200; any other status code (2xx or not) yields an
error value embedding that status code, and a raised exception yields an
error value embedding its message — in both variants, and the fetch
functions are total, so nothing propagates. -/
theorem claim_C4_amended (get : String → GetResult) (sg : String) (resp : HttpResponse)
    (h : get sg = GetResult.ok resp) :
    (resp.status_code = 200 →
      Rdf.get_rdf_status get sg = (sg, resp.body) ∧
      RdfSql.get_rdf_status get sg = resp.body) ∧
    (resp.status_code ≠ 200 →
      Rdf.get_rdf_status get sg =
        (sg, Json.str ("Error: " ++ toString resp.status_code)) ∧
      RdfSql.get_rdf_status get sg =
        Json.obj [("error", Json.str ("HTTP " ++ toString resp.status_code))]) := by
  unfold Rdf.get_rdf_status RdfSql.get_rdf_status
  rw [h]
  constructor
  · intro h200
    simp [h200]
  · intro hne
    simp [hne]

theorem claim_C4_witness :
    Rdf.get_rdf_status (fun _ => GetResult.ok ⟨404, Json.null⟩) "SG1" =
      ("SG1", Json.str "Error: 404") ∧
    RdfSql.get_rdf_status (fun _ => GetResult.ok ⟨200, Json.null⟩) "SG1" = Json.null := by
  constructor
  · exact ((claim_C4_amended (fun _ => GetResult.ok ⟨404, Json.null⟩) "SG1"
      ⟨404, Json.null⟩ rfl).2 (by decide)).1
  · exact ((claim_C4_amended (fun _ => GetResult.ok ⟨200, Json.null⟩) "SG1"
      ⟨200, Json.null⟩ rfl).1 rfl).2

/-- The i-th entry of the batch results is the fetch of the i-th target. -/
theorem process_batch_results_get (get : String → GetResult) (batch : List String)
    (i : Nat) (h : i < batch.length)
    (h2 : i < (Rdf.process_batch_results get batch).length) :
    (Rdf.process_batch_results get batch).get ⟨i, h2⟩ =
      Rdf.get_rdf_status get (batch.get ⟨i, h⟩) := by
  simp [Rdf.process_batch_results]

/-- C5: if exactly one target of a batch raises a transport exception and
every other target fetches a 200 response, the batch result still has one
entry per target; the failing target is present, keyed by its identifier
and carrying the sentinel `"Exception: <msg>"` value, and every other
target carries its parsed body — nothing propagates, nothing is dropped. -/
theorem claim_C5 (get : String → GetResult) (batch : List String) (j : Nat)
    (hj : j < batch.length) (msg : String)
    (hfail : get (batch.get ⟨j, hj⟩) = GetResult.exn msg)
    (hok : ∀ i (h : i < batch.length), i ≠ j →
      ∃ b, get (batch.get ⟨i, h⟩) = GetResult.ok ⟨200, b⟩) :
    (Rdf.process_batch_results get batch).length = batch.length ∧
    (∀ h2 : j < (Rdf.process_batch_results get batch).length,
      (Rdf.process_batch_results get batch).get ⟨j, h2⟩ =
        (batch.get ⟨j, hj⟩, Json.str ("Exception: " ++ msg))) ∧
    (∀ i (h : i < batch.length) (h2 : i < (Rdf.process_batch_results get batch).length),
      i ≠ j → ∃ b, get (batch.get ⟨i, h⟩) = GetResult.ok ⟨200, b⟩ ∧
        (Rdf.process_batch_results get batch).get ⟨i, h2⟩ = (batch.get ⟨i, h⟩, b)) := by
  refine ⟨by simp [Rdf.process_batch_results], ?_, ?_⟩
  · intro h2
    have hf : get batch[j] = GetResult.exn msg := by simpa using hfail
    rw [process_batch_results_get get batch j hj h2]
    simp [Rdf.get_rdf_status, hf]
  · intro i h h2 hne
    obtain ⟨b, hb⟩ := hok i h hne
    refine ⟨b, hb, ?_⟩
    have hb2 : get batch[i] = GetResult.ok ⟨200, b⟩ := by simpa using hb
    rw [process_batch_results_get get batch i h h2]
    simp [Rdf.get_rdf_status, hb2]

theorem claim_C5_witness :
    (Rdf.process_batch_results
      (fun s => if s = "SG2" then GetResult.exn "timeout"
        else GetResult.ok ⟨200, Json.obj []⟩)
      ["SG1", "SG2", "SG3"]).length = 3 ∧
    (Rdf.process_batch_results
      (fun s => if s = "SG2" then GetResult.exn "timeout"
        else GetResult.ok ⟨200, Json.obj []⟩)
      ["SG1", "SG2", "SG3"]).get ⟨1, by decide⟩ =
        ("SG2", Json.str "Exception: timeout") := by
  have hok : ∀ i (h : i < (["SG1", "SG2", "SG3"] : List String).length), i ≠ 1 →
      ∃ b, (fun s => if s = "SG2" then GetResult.exn "timeout"
          else GetResult.ok ⟨200, Json.obj []⟩)
        ((["SG1", "SG2", "SG3"] : List String).get ⟨i, h⟩) =
          GetResult.ok ⟨200, b⟩ := by
    intro i h hne
    have h3 : i < 3 := by simpa using h
    interval_cases i
    · exact ⟨Json.obj [], rfl⟩
    · exact absurd rfl hne
    · exact ⟨Json.obj [], rfl⟩
  have h := claim_C5
    (fun s => if s = "SG2" then GetResult.exn "timeout"
      else GetResult.ok ⟨200, Json.obj []⟩)
    ["SG1", "SG2", "SG3"] 1 (by decide) "timeout" rfl hok
  exact ⟨h.1, h.2.1 (by decide)⟩

/-- One-step unfolding of the batch loop. -/
theorem batch_loop_cons (n i : Nat) (b : List String) (rest : List (List String)) :
    Rdf.batch_loop n i (b :: rest) =
      Rdf.Event.process i b ::
        (if i < n then [Rdf.Event.sleep 10] else []) ++ Rdf.batch_loop n (i + 1) rest := rfl

/-- One-step unfolding of the processing-event list. -/
theorem process_events_cons (i : Nat) (b : List String) (rest : List (List String)) :
    Rdf.process_events i (b :: rest) =
      Rdf.Event.process i b :: Rdf.process_events (i + 1) rest := rfl

/-- The batch loop interleaves exactly one sleep between consecutive
batch-processing steps, given the loop-counter invariant
`i + (remaining batches) = len(batches) + 1`. -/
theorem batch_loop_eq (n i : Nat) (bs : List (List String)) (h : i + bs.length = n + 1) :
    Rdf.batch_loop n i bs =
      List.intersperse (Rdf.Event.sleep 10) (Rdf.process_events i bs) := by
  match bs with
  | [] => rfl
  | [b] =>
      have hn : ¬(i < n) := by
        simp only [List.length_cons, List.length_nil] at h
        omega
      simp [Rdf.batch_loop, Rdf.process_events, hn, List.intersperse_singleton]
  | b :: c :: rest =>
      have hlt : i < n := by
        simp only [List.length_cons] at h
        omega
      have ih := batch_loop_eq n (i + 1) (c :: rest) (by
        simp only [List.length_cons] at h ⊢
        omega)
      rw [batch_loop_cons n i b (c :: rest), if_pos hlt, ih,
        process_events_cons i b (c :: rest), process_events_cons (i + 1) c rest,
        List.intersperse_cons_cons]
      rfl

/-- The batch loop emits `len(batches) − 1` sleeps under the same
loop-counter invariant. -/
theorem batch_loop_sleep_count (n i : Nat) (bs : List (List String))
    (h : i + bs.length = n + 1) :
    (Rdf.batch_loop n i bs).countP Rdf.isSleepEvent = bs.length - 1 := by
  match bs with
  | [] => rfl
  | [b] =>
      have hn : ¬(i < n) := by
        simp only [List.length_cons, List.length_nil] at h
        omega
      simp [Rdf.batch_loop, hn, List.countP_cons, Rdf.isSleepEvent]
  | b :: c :: rest =>
      have hlt : i < n := by
        simp only [List.length_cons] at h
        omega
      have ih := batch_loop_sleep_count n (i + 1) (c :: rest) (by
        simp only [List.length_cons] at h ⊢
        omega)
      rw [batch_loop_cons n i b (c :: rest), if_pos hlt]
      show (Rdf.Event.process i b :: Rdf.Event.sleep 10 ::
        Rdf.batch_loop n (i + 1) (c :: rest)).countP Rdf.isSleepEvent = _
      rw [List.countP_cons, List.countP_cons, ih]
      simp [Rdf.isSleepEvent]

/-- C6: the trace of `main`'s batch loop is the batch-processing events in
input order with exactly one 10-second sleep interspersed between
consecutive batches — so the delay runs after every batch except the last
(`len − 1` sleeps in total), and batch `k+1` starts only after batch `k`'s
processing and the delay, the trace being sequential. -/
theorem claim_C6 (bs : List (List String)) :
    Rdf.main_schedule bs =
      List.intersperse (Rdf.Event.sleep 10) (Rdf.process_events 1 bs) ∧
    (Rdf.main_schedule bs).countP Rdf.isSleepEvent = bs.length - 1 :=
  ⟨batch_loop_eq bs.length 1 bs (by omega),
   batch_loop_sleep_count bs.length 1 bs (by omega)⟩

/-- C7: if the startup inventory request fails — a non-200 response, or
an uncaught exception — `main` in `rdf_sql.py` terminates before the
collection loop: for any number of observed loop iterations the trace
contains no collection pass and no database commit; and when the
inventory call returns 200 the collection loop is entered (the first
pass appears in the trace as soon as one iteration is observed). -/
theorem claim_C7 (inv : GetResult) (passes : Nat) :
    (∀ resp, inv = GetResult.ok resp → resp.status_code ≠ 200 →
      RdfSql.main_events inv passes =
        [RdfSql.SysEvent.console
          ("Failed to get storage groups: HTTP " ++ toString resp.status_code)] ∧
      ∀ e ∈ RdfSql.main_events inv passes,
        (∀ k, e ≠ RdfSql.SysEvent.collection_pass k) ∧ e ≠ RdfSql.SysEvent.db_commit) ∧
    (∀ msg, inv = GetResult.exn msg →
      ∀ e ∈ RdfSql.main_events inv passes,
        (∀ k, e ≠ RdfSql.SysEvent.collection_pass k) ∧ e ≠ RdfSql.SysEvent.db_commit) ∧
    (∀ resp, inv = GetResult.ok resp → resp.status_code = 200 → 0 < passes →
      RdfSql.SysEvent.collection_pass 0 ∈ RdfSql.main_events inv passes) := by
  refine ⟨?_, ?_, ?_⟩
  · intro resp hinv hne
    subst hinv
    constructor
    · simp [RdfSql.main_events, hne]
    · intro e he
      simp [RdfSql.main_events, hne] at he
      subst he
      exact ⟨fun k => by simp, by simp⟩
  · intro msg hinv e he
    subst hinv
    simp [RdfSql.main_events] at he
    subst he
    exact ⟨fun k => by simp, by simp⟩
  · intro resp hinv h200 hpos
    subst hinv
    have heq : RdfSql.main_events (GetResult.ok resp) passes =
        RdfSql.SysEvent.console "Found RDF storage groups" ::
          RdfSql.loop_events passes := by
      simp [RdfSql.main_events, h200]
    rw [heq]
    refine List.mem_cons_of_mem _ ?_
    simp only [RdfSql.loop_events, List.mem_flatMap]
    exact ⟨0, by simpa [List.mem_range] using hpos, by simp⟩

theorem claim_C7_witness :
    RdfSql.main_events (GetResult.ok ⟨500, Json.null⟩) 2 =
      [RdfSql.SysEvent.console "Failed to get storage groups: HTTP 500"] ∧
    RdfSql.SysEvent.collection_pass 0 ∈
      RdfSql.main_events (GetResult.ok ⟨200, Json.null⟩) 1 :=
  ⟨((claim_C7 (GetResult.ok ⟨500, Json.null⟩) 2).1 ⟨500, Json.null⟩ rfl
      (by decide)).1,
   (claim_C7 (GetResult.ok ⟨200, Json.null⟩) 1).2.2 ⟨200, Json.null⟩ rfl rfl
      (by decide)⟩

/-- Characterization of the `process_storage_groups` loop fold: the
operations are the per-group inserts in input order, and `processed`
counts the groups whose try block yielded rdf groups. -/
theorem psg_fold_spec (get : String → GetResult) (sgs : List String) :
    ∀ acc : List RdfSql.DbOp × Nat,
      (sgs.foldl (RdfSql.psg_step get) acc).1 =
        acc.1 ++ sgs.flatMap
          (fun sg => ((RdfSql.try_result get sg).getD []).map (RdfSql.DbOp.insert sg)) ∧
      (sgs.foldl (RdfSql.psg_step get) acc).2 =
        acc.2 + sgs.countP (fun sg => (RdfSql.try_result get sg).isSome) := by
  induction sgs with
  | nil =>
      intro acc
      simp
  | cons sg rest ih =>
      intro acc
      rw [List.foldl_cons]
      obtain ⟨h1, h2⟩ := ih (RdfSql.psg_step get acc sg)
      cases htr : RdfSql.try_result get sg with
      | some gs =>
          constructor
          · rw [h1]
            simp [RdfSql.psg_step, htr, List.flatMap_cons, List.append_assoc]
          · rw [h2]
            simp [RdfSql.psg_step, htr, List.countP_cons]
            omega
      | none =>
          constructor
          · rw [h1]
            simp [RdfSql.psg_step, htr, List.flatMap_cons]
          · rw [h2]
            simp [RdfSql.psg_step, htr, List.countP_cons]

/-- Every operation issued before the final commit is an insert. -/
theorem inserted_no_commit (get : String → GetResult) (sgs : List String) :
    ∀ op ∈ sgs.flatMap
      (fun sg => ((RdfSql.try_result get sg).getD []).map (RdfSql.DbOp.insert sg)),
      RdfSql.isCommit op = false := by
  intro op hop
  simp only [List.mem_flatMap, List.mem_map] at hop
  obtain ⟨sg, _, v, _, rfl⟩ := hop
  rfl

/-- The pending/committed fold never commits anything while processing a
commit-free operation list. -/
theorem committed_fold_aux : ∀ (ops : List RdfSql.DbOp),
    (∀ op ∈ ops, RdfSql.isCommit op = false) →
    ∀ st : List RdfSql.DbOp × List RdfSql.DbOp,
      (ops.foldl
        (fun (st : List RdfSql.DbOp × List RdfSql.DbOp) op =>
          match op with
          | RdfSql.DbOp.insert sg v => (st.1 ++ [RdfSql.DbOp.insert sg v], st.2)
          | RdfSql.DbOp.commit => ([], st.2 ++ st.1)) st).2 = st.2 := by
  intro ops
  induction ops with
  | nil =>
      intro _ st
      rfl
  | cons op rest ih =>
      intro h st
      rw [List.foldl_cons]
      cases op with
      | insert sg v =>
          exact ih (fun o ho => h o (List.mem_cons_of_mem _ ho)) _
      | commit =>
          have := h _ (List.mem_cons_self _ _)
          simp [RdfSql.isCommit] at this

/-- A commit-free prefix leaves the database unchanged. -/
theorem committed_after_no_commit (ops : List RdfSql.DbOp)
    (h : ∀ op ∈ ops, RdfSql.isCommit op = false) :
    RdfSql.committed_after ops = [] := by
  unfold RdfSql.committed_after
  exact committed_fold_aux ops h ([], [])

/-- C8: one collection pass issues exactly one commit, as the very last
database operation; truncating the operation sequence anywhere before its
end (a crash before the final commit) leaves no record committed. -/
theorem claim_C8 (get : String → GetResult) (sgs : List String) :
    (RdfSql.process_storage_groups get sgs).1.countP RdfSql.isCommit = 1 ∧
    (RdfSql.process_storage_groups get sgs).1.getLast? = some RdfSql.DbOp.commit ∧
    ∀ k, k < (RdfSql.process_storage_groups get sgs).1.length →
      RdfSql.committed_after ((RdfSql.process_storage_groups get sgs).1.take k) = [] := by
  have hops : (RdfSql.process_storage_groups get sgs).1 =
      sgs.flatMap
        (fun sg => ((RdfSql.try_result get sg).getD []).map (RdfSql.DbOp.insert sg))
        ++ [RdfSql.DbOp.commit] := by
    show (List.foldl (RdfSql.psg_step get) ([], 0) sgs).1 ++ [RdfSql.DbOp.commit] = _
    rw [(psg_fold_spec get sgs ([], 0)).1]
    simp
  rw [hops]
  refine ⟨?_, List.getLast?_concat _, ?_⟩
  · rw [List.countP_append, List.countP_eq_zero.mpr
      (fun op hop => by simp [inserted_no_commit get sgs op hop])]
    rfl
  · intro k hk
    rw [List.length_append, List.length_cons, List.length_nil] at hk
    rw [List.take_append_of_le_length (by omega)]
    exact committed_after_no_commit _
      (fun op hop => inserted_no_commit get sgs op (List.mem_of_mem_take hop))

theorem claim_C8_witness :
    (RdfSql.process_storage_groups
      (fun _ => GetResult.ok ⟨200, Json.obj [("rdfGroupInfo", Json.arr [Json.null])]⟩)
      ["SG1"]).1.countP RdfSql.isCommit = 1 ∧
    RdfSql.committed_after
      ((RdfSql.process_storage_groups
        (fun _ => GetResult.ok ⟨200, Json.obj [("rdfGroupInfo", Json.arr [Json.null])]⟩)
        ["SG1"]).1.take 1) = [] := by
  have h := claim_C8
    (fun _ => GetResult.ok ⟨200, Json.obj [("rdfGroupInfo", Json.arr [Json.null])]⟩)
    ["SG1"]
  exact ⟨h.1, h.2.2 1 (by decide)⟩

/-- C10: `process_batch` returns the size of its input batch, counting
error entries, while `process_storage_groups` returns a count covering
only the storage groups whose fetched response contains the
`'rdfGroupInfo'` key (failed and shape-mismatched targets are excluded
from the count). -/
theorem claim_C10 (get1 get2 : String → GetResult) (batch sgs : List String) :
    Rdf.process_batch_ret get1 batch = batch.length ∧
    (RdfSql.process_storage_groups get2 sgs).2 =
      sgs.countP (fun sg => (RdfSql.try_result get2 sg).isSome) ∧
    (∀ sg, (RdfSql.try_result get2 sg).isSome = true →
      Json.pyIn "rdfGroupInfo" (RdfSql.get_rdf_status get2 sg) = Except.ok true) := by
  refine ⟨?_, ?_, ?_⟩
  · simp [Rdf.process_batch_ret, Rdf.process_batch_results]
  · simpa [RdfSql.process_storage_groups] using (psg_fold_spec get2 sgs ([], 0)).2
  · intro sg hsg
    simp only [RdfSql.try_result] at hsg
    cases hp : Json.pyIn "rdfGroupInfo" (RdfSql.get_rdf_status get2 sg) with
    | ok b =>
        cases b with
        | true => rfl
        | false =>
            rw [hp] at hsg
            simp at hsg
    | error e =>
        rw [hp] at hsg
        simp at hsg

theorem claim_C10_witness :
    Rdf.process_batch_ret (fun _ => GetResult.exn "boom") ["SG1", "SG2"] = 2 ∧
    (RdfSql.process_storage_groups
      (fun s => if s = "SG1"
        then GetResult.ok ⟨200, Json.obj [("rdfGroupInfo", Json.arr [Json.null])]⟩
        else GetResult.exn "boom") ["SG1", "SG2"]).2 = 1 ∧
    Json.pyIn "rdfGroupInfo" (RdfSql.get_rdf_status
      (fun s => if s = "SG1"
        then GetResult.ok ⟨200, Json.obj [("rdfGroupInfo", Json.arr [Json.null])]⟩
        else GetResult.exn "boom") "SG1") = Except.ok true := by
  have h := claim_C10 (fun _ => GetResult.exn "boom")
    (fun s => if s = "SG1"
      then GetResult.ok ⟨200, Json.obj [("rdfGroupInfo", Json.arr [Json.null])]⟩
      else GetResult.exn "boom")
    ["SG1", "SG2"] ["SG1", "SG2"]
  refine ⟨by rw [h.1]; rfl, by rw [h.2.1]; rfl, h.2.2 "SG1" (by decide)⟩

/-- `Except.bind` on a success passes the value through. -/
theorem except_bind_ok {ε α β : Type} (a : α) (f : α → Except ε β) :
    (Except.ok a : Except ε α).bind f = f a := rfl

/-- One-step unfolding of the pagination loop on a nonempty response
stream. -/
theorem getPaginatedLoop_cons (r : HttpResponse) (rest : List HttpResponse)
    (acc : List Json) :
    Vmax.getPaginatedLoop (r :: rest) acc =
      if 400 ≤ r.status_code then
        .error ("HTTPError: " ++ toString r.status_code)
      else
        if Vmax.is_paginated_response r.body then
          (Json.subscript r.body "resultList").bind fun rl =>
          (Json.subscript rl "result").bind fun res =>
          (Json.pyIter res).bind fun items =>
          (Json.pyIn "nextPageKey" rl).bind fun has_key =>
          if has_key then
            (Json.subscript rl "nextPageKey").bind fun npk =>
            if npk.pyTruthy then Vmax.getPaginatedLoop rest (acc ++ items)
            else .ok (.items (acc ++ items))
          else .ok (.items (acc ++ items))
        else .ok (.raw r.body) := rfl

/-- On a well-formed paginated stream, the loop accumulates every page's
items, in page order, onto the running accumulator. -/
theorem getPaginatedLoop_spec (responses : List HttpResponse)
    (pages : List (List Json)) (h : Vmax.PagStream responses pages) :
    ∀ acc, Vmax.getPaginatedLoop responses acc =
      Except.ok (Vmax.PagValue.items (acc ++ pages.flatten)) := by
  induction h with
  | last r items hshape =>
      intro acc
      obtain ⟨hst, hpag, rl, hrl, hres, hlast⟩ := hshape
      have hnot : ¬(400 ≤ r.status_code) := by omega
      rcases hlast with hnone | ⟨v, hk, hv, hfalse⟩
      · simp [getPaginatedLoop_cons, hnot, hpag, hrl, hres, hnone, except_bind_ok,
          Json.pyIter]
      · simp [getPaginatedLoop_cons, hnot, hpag, hrl, hres, hk, hv, hfalse,
          except_bind_ok, Json.pyIter]
  | cons r items rs ps hshape hstream ih =>
      intro acc
      obtain ⟨hst, hpag, rl, hrl, hres, hnext⟩ := hshape
      obtain ⟨v, hk, hv, htrue⟩ := hnext
      have hnot : ¬(400 ≤ r.status_code) := by omega
      simp [getPaginatedLoop_cons, hnot, hpag, hrl, hres, hk, hv, htrue,
        except_bind_ok, Json.pyIter, ih, List.flatten_cons, List.append_assoc]

/-- C2: on every response sequence forming well-shaped pages — each a
mapping with a result list, carrying a truthy next-page key on all pages
but the last — `_get_paginated` returns exactly the concatenation of all
pages' result items in page order (no duplicates, no omissions); and a
first response that is not such a paginated mapping is returned as the
parsed body, unchanged. -/
theorem claim_C2 :
    (∀ (responses : List HttpResponse) (pages : List (List Json)),
      Vmax.PagStream responses pages →
      Vmax.get_paginated responses =
        Except.ok (Vmax.PagValue.items pages.flatten)) ∧
    (∀ (r : HttpResponse) (rest : List HttpResponse),
      r.status_code < 400 → Vmax.is_paginated_response r.body = false →
      Vmax.get_paginated (r :: rest) = Except.ok (Vmax.PagValue.raw r.body)) := by
  constructor
  · intro responses pages h
    have hs := getPaginatedLoop_spec responses pages h []
    simpa [Vmax.get_paginated] using hs
  · intro r rest h1 h2
    rw [Vmax.get_paginated, getPaginatedLoop_cons, if_neg (by omega)]
    simp [h2]

theorem claim_C2_witness :
    Vmax.get_paginated
      [⟨200, Json.obj [("resultList", Json.obj [("result",
          Json.arr [Json.str "A", Json.str "B"]), ("nextPageKey", Json.str "k2")])]⟩,
       ⟨200, Json.obj [("resultList", Json.obj [("result",
          Json.arr [Json.str "C"])])]⟩] =
      Except.ok (Vmax.PagValue.items [Json.str "A", Json.str "B", Json.str "C"]) ∧
    Vmax.get_paginated [⟨200, Json.num 7⟩] =
      Except.ok (Vmax.PagValue.raw (Json.num 7)) := by
  constructor
  · have hs : Vmax.PagStream
        [⟨200, Json.obj [("resultList", Json.obj [("result",
            Json.arr [Json.str "A", Json.str "B"]), ("nextPageKey", Json.str "k2")])]⟩,
         ⟨200, Json.obj [("resultList", Json.obj [("result",
            Json.arr [Json.str "C"])])]⟩]
        [[Json.str "A", Json.str "B"], [Json.str "C"]] := by
      refine Vmax.PagStream.cons _ _ _ _
        ⟨by decide, rfl,
          ⟨Json.obj [("result", Json.arr [Json.str "A", Json.str "B"]),
            ("nextPageKey", Json.str "k2")], rfl, rfl,
            ⟨Json.str "k2", rfl, rfl, rfl⟩⟩⟩
        (Vmax.PagStream.last _ _
          ⟨by decide, rfl,
            ⟨Json.obj [("result", Json.arr [Json.str "C"])], rfl, rfl,
              Or.inl rfl⟩⟩)
    exact claim_C2.1 _ _ hs
  · exact claim_C2.2 ⟨200, Json.num 7⟩ [] (by decide) rfl
